import Mathlib

/-!
Shallow embedding of the `canon-camera-mcp` repository
(`src/canon_camera.py` and `src/server.py`) and proofs about it.

Modelling conventions:
 - The camera device is abstracted by a `CamBehavior`: the responses it would
   give to each HTTP exchange.  `Except String` models a
   `requests.RequestException` (its message) versus a successful response;
   `raise_for_status` on a non-2xx response is such an exception.
 - Each client operation returns its result together with the list of HTTP
   requests it issued, in order, so that "no write is issued" style properties
   are statements about that list.  A request is modeled by its method, its
   path relative to the fixed base URL, and the `timeout` argument the code
   passes to the HTTP library (`none` when the code passes no timeout).
 - Python strings are Lean `String`s; a camera JSON settings record is
   modeled by its two fields the code reads (`value`, `ability`), both
   optional; a full settings document is an association list from setting
   name to record.
 - Image encoding (PIL `save`) is abstracted by size functions: `jpegAt pct q`
   is the byte size of saving the frame resized to `pct`% of its linear
   dimensions as JPEG at quality `q` (with `optimize`), and `pngAt pct` the
   size of saving it as PNG with `optimize` (PIL PNG saving takes no quality
   argument, exactly as in the code).  Byte buffers are identified by the
   save call that produced them.
-/

/-- A single camera HTTP request: method, path relative to the fixed base URL
`http://ip:port`, and the timeout argument the code passes to the `requests`
call (`none` when the code passes no timeout argument at all). -/
structure HttpReq where
  method : String
  path : String
  timeout : Option Nat
deriving Repr, DecidableEq

/-- A camera-reported setting record, keeping the two JSON fields the code
reads: `value` (read with `current.get("value")`, hence optional) and
`ability` (tested with `"ability" in current`, hence optional). -/
structure SettingRecord where
  value : Option String
  ability : Option (List String)
deriving Repr, DecidableEq

/-- The camera side of each HTTP exchange the client can perform.  An
`.error msg` models a `requests.RequestException` (network failure, timeout,
or non-2xx status surfaced by `raise_for_status`). -/
structure CamBehavior where
  allSettings : Except String (List (String × SettingRecord))
  getSetting : String → Except String SettingRecord
  put : String → String → Except String Unit

/-- Path of the settings collection endpoint used by the client. -/
def settingsPath : String := "/ccapi/ver100/shooting/settings"

/-- The GET request issued by `get_all_settings` via `_get` (timeout=10). -/
def allSettingsReq : HttpReq :=
  { method := "GET", path := settingsPath, timeout := some 10 }

/-- The GET request issued by `get_setting` via `_get` (timeout=10). -/
def getSettingReq (setting_name : String) : HttpReq :=
  { method := "GET", path := settingsPath ++ "/" ++ setting_name, timeout := some 10 }

/-- The PUT request issued by `set_setting` via `_put` (timeout=10). -/
def putSettingReq (setting_name value : String) : HttpReq :=
  { method := "PUT", path := settingsPath ++ "/" ++ setting_name, timeout := some 10 }

/-- The POST request issued by `init_live_view`: the code calls
`requests.post(url, json=body)` with no timeout argument. -/
def CanonCamera.init_live_view_req (liveviewsize cameradisplay : String) : HttpReq :=
  { method := "POST", path := "/ccapi/ver100/shooting/liveview/", timeout := none }

/-- The GET request issued by `get_liveview_image`: the code calls
`requests.get(url, stream=True, timeout=15)`. -/
def liveviewFlipReq : HttpReq :=
  { method := "GET", path := "/ccapi/ver100/shooting/liveview/flip", timeout := some 15 }

/-- `CanonCamera.get_all_settings`: one GET of the settings document. -/
def CanonCamera.get_all_settings (beh : CamBehavior) :
    Except String (List (String × SettingRecord)) × List HttpReq :=
  (beh.allSettings, [allSettingsReq])

/-- `CanonCamera.get_setting`: one GET of a single setting record. -/
def CanonCamera.get_setting (beh : CamBehavior) (setting_name : String) :
    Except String SettingRecord × List HttpReq :=
  (beh.getSetting setting_name, [getSettingReq setting_name])

/-- Failure modes of `CanonCamera.set_setting`: a propagating
`requests.RequestException`, or the `ValueError` raised by the allow-list
validation. -/
inductive SetErr where
  | request (msg : String)
  | invalidValue (msg : String)
deriving Repr, DecidableEq

/-- The dict returned by a successful `CanonCamera.set_setting`. -/
structure SetResult where
  setting : String
  previous_value : Option String
  new_value : String
  success : Bool
deriving Repr, DecidableEq

/-- Python `repr` of a simple string (as it appears inside `str` of a list). -/
def pyStrRepr (s : String) : String := "\x27" ++ s ++ "\x27"

/-- Python `str` of a list of strings, e.g. `[\x274.0\x27, \x275.6\x27]`. -/
def pyListRepr (xs : List String) : String :=
  "[" ++ String.intercalate ", " (xs.map pyStrRepr) ++ "]"

/-- The `ValueError` message built by `set_setting` when the requested value
is not in the freshly fetched `ability` list. -/
def invalidValueMsg (value setting_name : String) (ability : List String) : String :=
  ("Invalid value " ++ pyStrRepr value ++ " for " ++ setting_name ++
    ". Available options: ") ++ pyListRepr ability

/-- The tail of `set_setting` once validation has passed: issue the PUT and,
on success, build the result dict from the pre-write record. -/
def setSettingPut (beh : CamBehavior) (setting_name value : String)
    (current : SettingRecord) : Except SetErr SetResult × List HttpReq :=
  match beh.put setting_name value with
  | .error e =>
      (.error (.request e), [getSettingReq setting_name, putSettingReq setting_name value])
  | .ok _ =>
      (.ok { setting := setting_name, previous_value := current.value,
             new_value := value, success := true },
       [getSettingReq setting_name, putSettingReq setting_name value])

/-- `CanonCamera.set_setting`: fetch the current record fresh; if it has an
`ability` list not containing `value`, raise `ValueError` with the full
allow-list in the message; otherwise PUT the new value and return
`setting / previous_value / new_value / success`. -/
def CanonCamera.set_setting (beh : CamBehavior) (setting_name value : String) :
    Except SetErr SetResult × List HttpReq :=
  match beh.getSetting setting_name with
  | .error e => (.error (.request e), [getSettingReq setting_name])
  | .ok current =>
    match current.ability with
    | some ab =>
        if !(ab.contains value) then
          (.error (.invalidValue (invalidValueMsg value setting_name ab)),
           [getSettingReq setting_name])
        else
          setSettingPut beh setting_name value current
    | none => setSettingPut beh setting_name value current

/-- The three error kinds of the dispatch layer envelope. -/
inductive ErrKind where
  | camera_communication_error
  | invalid_parameter
  | internal_error
deriving Repr, DecidableEq

/-- A dispatch-layer outcome: success payload or error envelope. -/
inductive Outcome (α : Type) where
  | ok (payload : α)
  | err (kind : ErrKind) (msg : String)
deriving Repr, DecidableEq

/-- The fixed allow-list of the write path (`set_camera_setting`). -/
def writeAllowList : List String := ["av", "tv", "iso"]

/-- The fixed allow-list of the read path (`get_camera_settings`), also the
projection list for `all`. -/
def readAllowList : List String := ["av", "tv", "iso", "shootingmodedial"]

/-- The `ValueError` message built for an unrecognized setting name. -/
def invalidSettingMsg (setting : String) (valid : List String) : String :=
  "Invalid setting " ++ pyStrRepr setting ++ ". Valid options: " ++ pyListRepr valid

/-- `set_camera_setting`: validate the name against the write allow-list and
the value for non-emptiness, then delegate to `CanonCamera.set_setting`,
classifying exceptions into the error envelope. -/
def set_camera_setting (beh : CamBehavior) (setting value : String) :
    Outcome SetResult × List HttpReq :=
  if !(writeAllowList.contains setting) then
    (.err .invalid_parameter (invalidSettingMsg setting writeAllowList), [])
  else if value = "" then
    (.err .invalid_parameter "Value is required", [])
  else
    match CanonCamera.set_setting beh setting value with
    | (.ok r, calls) => (.ok r, calls)
    | (.error (.request m), calls) =>
        (.err .camera_communication_error ("Failed to communicate with camera: " ++ m), calls)
    | (.error (.invalidValue m), calls) => (.err .invalid_parameter m, calls)

/-- The payload of a successful `get_camera_settings`: either the projected
full document, or a single record with the added `setting_name` key. -/
inductive GetPayload where
  | doc (entries : List (String × SettingRecord))
  | single (record : SettingRecord) (setting_name : String)
deriving Repr, DecidableEq

/-- The dict comprehension filtering the full settings document down to the
fixed projection keys, in allow-list order, skipping absent keys. -/
def projectDoc (doc : List (String × SettingRecord)) : List (String × SettingRecord) :=
  readAllowList.filterMap fun k => (doc.lookup k).map fun v => (k, v)

/-- `get_camera_settings`: `all` fetches the whole document and projects it;
a named request is validated against the read allow-list, then fetched,
with exceptions classified into the error envelope. -/
def get_camera_settings (beh : CamBehavior) (setting : String) :
    Outcome GetPayload × List HttpReq :=
  if setting = "all" then
    match beh.allSettings with
    | .ok d => (.ok (.doc (projectDoc d)), [allSettingsReq])
    | .error m =>
        (.err .camera_communication_error ("Failed to communicate with camera: " ++ m),
         [allSettingsReq])
  else if !(readAllowList.contains setting) then
    (.err .invalid_parameter (invalidSettingMsg setting readAllowList), [])
  else
    match beh.getSetting setting with
    | .ok r => (.ok (.single r setting), [getSettingReq setting])
    | .error m =>
        (.err .camera_communication_error ("Failed to communicate with camera: " ++ m),
         [getSettingReq setting])

/-- The image format argument of the compression helpers. -/
inductive ImgFormat where
  | JPEG
  | PNG
deriving Repr, DecidableEq

/-- Abstraction of PIL encoding of the captured frame (after the RGB
conversion the code performs for JPEG): `jpegAt pct q` is the byte size of
saving the frame resized to `pct`% of its linear dimensions as JPEG at
quality `q` with `optimize=True`; `pngAt pct` is the byte size of saving it
as PNG with `optimize=True` (the PNG save call takes no quality argument).
`pct = 100` is the original resolution. -/
structure EncModel where
  jpegAt : Nat → Nat → Nat
  pngAt : Nat → Nat

/-- A returned byte buffer, identified by the save call that produced it:
a Phase-1 save at original resolution and the given loop quality, or a
Phase-2 save of the frame resized to the given scale percent. -/
inductive Buffer where
  | fullRes (quality : Nat)
  | scaled (pct : Nat)
deriving Repr, DecidableEq

/-- Byte size of the save performed by one Phase-1 loop iteration: JPEG at
the current quality, or PNG (quality not passed) — at original resolution. -/
def phase1Enc (m : EncModel) (fmt : ImgFormat) (quality : Nat) : Nat :=
  match fmt with
  | .JPEG => m.jpegAt 100 quality
  | .PNG => m.pngAt 100

/-- Byte size of the save performed by one Phase-2 loop iteration: the
resized frame at fixed quality 75 for JPEG, or PNG with optimize. -/
def phase2Enc (m : EncModel) (fmt : ImgFormat) (pct : Nat) : Nat :=
  match fmt with
  | .JPEG => m.jpegAt pct 75
  | .PNG => m.pngAt pct

/-- The `while quality >= min_quality` loop of `compress_image_to_target_size`
(quality starts at 95, `min_quality = 10`, step `quality -= 5`): return the
first quality whose encoding fits the budget, else `none`. -/
def phase1Loop (m : EncModel) (fmt : ImgFormat) (budget : Nat) (quality : Nat) :
    Option Nat :=
  if h : 10 ≤ quality then
    if phase1Enc m fmt quality ≤ budget then some quality
    else phase1Loop m fmt budget (quality - 5)
  else none
termination_by quality
decreasing_by omega

/-- The qualities the Phase-1 loop visits, in order. -/
def qualityGrid : List Nat :=
  [95, 90, 85, 80, 75, 70, 65, 60, 55, 50, 45, 40, 35, 30, 25, 20, 15, 10]

/-- The scale percentages visited by the `while scale_factor > 0.1` loop of
`resize_and_compress_image`.  `scale_factor` is an IEEE double starting at
0.9 with 0.1 subtracted per step; accumulated rounding error keeps the ninth
value (0.10000000000000014) strictly above 0.1, so the loop body runs nine
times, for scales 90%, 80%, ..., down to a floor of (approximately) 10% of
the original linear dimensions. -/
def scaleGrid : List Nat := [90, 80, 70, 60, 50, 40, 30, 20, 10]

/-- The Phase-2 loop body over the remaining scale steps: return at the
first step whose encoding fits the budget; after the last step the loop
exits and the function returns `img_byte_arr.getvalue()`, the buffer of the
last step performed (whether or not it fits).  The `[]` case is unreachable
from `resize_and_compress_image` since `scaleGrid` is nonempty. -/
def phase2Go (m : EncModel) (fmt : ImgFormat) (budget : Nat) : List Nat → Buffer
  | [] => Buffer.scaled 0
  | [pct] => Buffer.scaled pct
  | pct :: rest =>
      if phase2Enc m fmt pct ≤ budget then Buffer.scaled pct
      else phase2Go m fmt budget rest

/-- `resize_and_compress_image`: Phase 2 of the adapter. -/
def resize_and_compress_image (m : EncModel) (fmt : ImgFormat)
    (target_size_bytes : Nat) : Buffer :=
  phase2Go m fmt target_size_bytes scaleGrid

/-- `compress_image_to_target_size`: budget `target_size_mb * 1024 * 1024`
bytes; Phase-1 quality search from 95, falling back to
`resize_and_compress_image` when no quality step fits. -/
def compress_image_to_target_size (m : EncModel) (fmt : ImgFormat)
    (target_size_mb : Nat) : Buffer :=
  match phase1Loop m fmt (target_size_mb * 1024 * 1024) 95 with
  | some q => Buffer.fullRes q
  | none => resize_and_compress_image m fmt (target_size_mb * 1024 * 1024)

/-- The base64 alphabet, in index order. -/
def b64Alphabet : List Char :=
  "ABCDEFGHIJKLMNOPQRSTUVWXYZabcdefghijklmnopqrstuvwxyz0123456789+/".toList

/-- Character of a 6-bit group. -/
def b64Char (n : Nat) : Char := b64Alphabet.getD n 'A'

/-- Index of a character in the base64 alphabet, `none` for non-alphabet
characters (including the pad `=`). -/
def b64Index (c : Char) : Option Nat := b64Alphabet.findIdx? (· == c)

/-- The four characters encoding a full 3-byte group. -/
def b64EncTriple (a b c : Nat) : List Char :=
  [b64Char (a / 4), b64Char ((a % 4) * 16 + b / 16),
   b64Char ((b % 16) * 4 + c / 64), b64Char (c % 64)]

/-- Modelled Python `base64.b64encode` on a byte string (bytes as `Nat`s
below 256): 3-byte groups to 4 characters, with `=` padding for a 1- or
2-byte final group. -/
def b64encode : List Nat → List Char
  | [] => []
  | [a] => [b64Char (a / 4), b64Char ((a % 4) * 16), '=', '=']
  | [a, b] => [b64Char (a / 4), b64Char ((a % 4) * 16 + b / 16),
               b64Char ((b % 16) * 4), '=']
  | a :: b :: c :: rest => b64EncTriple a b c ++ b64encode rest

/-- A character Python `base64.b64decode` (with `validate=False`, the
default) keeps: alphabet characters and the pad. All others are discarded
before decoding. -/
def b64ValidChar (c : Char) : Bool := b64Alphabet.contains c || c == '='

/-- The discard pass of Python `base64.b64decode` with `validate=False`. -/
def b64Strip (s : List Char) : List Char := s.filter b64ValidChar

/-- Modelled Python `base64.b64decode` group decoding on well-formed input:
4-character groups, with `=` padding allowed only in the final group;
`none` models a raised `binascii.Error`. -/
def b64DecGroups : List Char → Option (List Nat)
  | [] => some []
  | c1 :: c2 :: c3 :: c4 :: rest =>
    match b64Index c1, b64Index c2 with
    | some a, some b =>
      if c3 = '=' then
        if c4 = '=' then
          if rest = [] then some [a * 4 + b / 16] else none
        else none
      else
        match b64Index c3 with
        | some c =>
          if c4 = '=' then
            if rest = [] then some [a * 4 + b / 16, (b % 16) * 16 + c / 4] else none
          else
            match b64Index c4 with
            | some d =>
              match b64DecGroups rest with
              | some tail =>
                  some ([a * 4 + b / 16, (b % 16) * 16 + c / 4, (c % 4) * 64 + d] ++ tail)
              | none => none
            | none => none
        | none => none
    | _, _ => none
  | _ => none

/-- Modelled Python `base64.b64decode` with `validate=False`: discard
non-alphabet characters, then decode 4-character groups. -/
def pyB64decode (s : List Char) : Option (List Nat) := b64Strip s |> b64DecGroups

/-- `CanonCamera.get_liveview_image` on a fetched frame body: the returned
string is the base64 encoding of the response bytes followed by a newline
(the code formats it as `f"...\x7bencoded\x7d\n"`). -/
def CanonCamera.get_liveview_image (content : List Nat) : List Char :=
  b64encode content ++ ['\n']

/-- The decode the dispatch layer `get_liveview` performs on the string
returned by `CanonCamera.get_liveview_image`. -/
def get_liveview_decoded (content : List Nat) : Option (List Nat) :=
  pyB64decode (CanonCamera.get_liveview_image content)

/-- Stub record for `av`, with an `ability` list. -/
def stubAvRecord : SettingRecord :=
  { value := some "5.6", ability := some ["4.0", "5.6", "8.0"] }

/-- Stub record for `tv`, with no `ability` field. -/
def stubTvRecord : SettingRecord := { value := some "1/60", ability := none }

/-- Stub record for `shootingmodedial`. -/
def stubModeRecord : SettingRecord := { value := some "P", ability := none }

/-- Stub settings document with an extraneous key. -/
def stubDoc : List (String × SettingRecord) :=
  [("av", stubAvRecord), ("extra_field", stubTvRecord)]

/-- A concrete stub camera used to instantiate the theorems. -/
def stubBeh : CamBehavior :=
  { allSettings := .ok stubDoc
    getSetting := fun name =>
      if name = "av" then .ok stubAvRecord
      else if name = "tv" then .ok stubTvRecord
      else if name = "shootingmodedial" then .ok stubModeRecord
      else .error "404 Client Error"
    put := fun _ _ => .ok () }

/-- C1: when the freshly fetched record has an `ability` list and the
requested value is not a member, `set_camera_setting` returns the
`invalid_parameter` envelope whose message ends with the rendered full
ability list, and the only HTTP request issued is the GET of the record —
in particular no PUT is ever issued. -/
theorem set_camera_setting_invalid_value_no_put (beh : CamBehavior)
    (setting value : String) (current : SettingRecord) (ab : List String)
    (hset : setting ∈ writeAllowList) (hv : value ≠ "")
    (hcur : beh.getSetting setting = .ok current)
    (hab : current.ability = some ab) (hmem : value ∉ ab) :
    set_camera_setting beh setting value =
      (.err .invalid_parameter (invalidValueMsg value setting ab), [getSettingReq setting]) ∧
    (∃ pre, invalidValueMsg value setting ab = pre ++ pyListRepr ab) ∧
    ∀ r ∈ (set_camera_setting beh setting value).2, r.method ≠ "PUT" := by
  have hmain : set_camera_setting beh setting value =
      (.err .invalid_parameter (invalidValueMsg value setting ab), [getSettingReq setting]) := by
    simp [set_camera_setting, CanonCamera.set_setting, hset, hv, hcur, hab, hmem]
  refine ⟨hmain, ⟨_, rfl⟩, ?_⟩
  rw [hmain]
  intro r hr
  simp only [List.mem_singleton] at hr
  subst hr
  simp [getSettingReq]

/-- C1 witness at a concrete stub camera. -/
theorem set_camera_setting_invalid_value_no_put_witness :
    set_camera_setting stubBeh "av" "11" =
      (.err .invalid_parameter (invalidValueMsg "11" "av" ["4.0", "5.6", "8.0"]),
       [getSettingReq "av"]) :=
  (set_camera_setting_invalid_value_no_put stubBeh "av" "11" stubAvRecord
    ["4.0", "5.6", "8.0"] (by decide) (by decide) rfl rfl (by decide)).1

/-- C2: when the freshly fetched record has an `ability` list containing the
requested value and the PUT succeeds, `set_setting` issues exactly one GET
followed by exactly one PUT and returns the dict with the pre-write value as
`previous_value`, the requested value as `new_value`, and `success = true`. -/
theorem set_setting_member_one_put (beh : CamBehavior) (setting_name value : String)
    (current : SettingRecord) (ab : List String)
    (hcur : beh.getSetting setting_name = .ok current)
    (hab : current.ability = some ab) (hmem : value ∈ ab)
    (hput : beh.put setting_name value = .ok ()) :
    CanonCamera.set_setting beh setting_name value =
      (.ok { setting := setting_name, previous_value := current.value,
             new_value := value, success := true },
       [getSettingReq setting_name, putSettingReq setting_name value]) ∧
    (CanonCamera.set_setting beh setting_name value).2.countP
        (fun r => r.method == "PUT") = 1 := by
  have hmain : CanonCamera.set_setting beh setting_name value =
      (.ok { setting := setting_name, previous_value := current.value,
             new_value := value, success := true },
       [getSettingReq setting_name, putSettingReq setting_name value]) := by
    simp [CanonCamera.set_setting, setSettingPut, hcur, hab, hmem, hput]
  refine ⟨hmain, ?_⟩
  rw [hmain]
  simp [List.countP, List.countP.go, getSettingReq, putSettingReq]

/-- C2 witness at a concrete stub camera. -/
theorem set_setting_member_one_put_witness :
    CanonCamera.set_setting stubBeh "av" "8.0" =
      (.ok { setting := "av", previous_value := some "5.6",
             new_value := "8.0", success := true },
       [getSettingReq "av", putSettingReq "av" "8.0"]) :=
  (set_setting_member_one_put stubBeh "av" "8.0" stubAvRecord
    ["4.0", "5.6", "8.0"] rfl rfl (by decide) rfl).1

/-- C3: when the freshly fetched record has no `ability` field, `set_setting`
performs no client-side validation: it goes straight to the PUT (one GET then
one PUT issued), never produces the `ValueError` outcome, and its result is
decided solely by the PUT response. -/
theorem set_setting_no_ability_writes (beh : CamBehavior) (setting_name value : String)
    (current : SettingRecord)
    (hcur : beh.getSetting setting_name = .ok current)
    (hab : current.ability = none) :
    CanonCamera.set_setting beh setting_name value =
      setSettingPut beh setting_name value current ∧
    (CanonCamera.set_setting beh setting_name value).2 =
      [getSettingReq setting_name, putSettingReq setting_name value] ∧
    (∀ m, (CanonCamera.set_setting beh setting_name value).1 ≠
      .error (.invalidValue m)) ∧
    (beh.put setting_name value = .ok () →
      (CanonCamera.set_setting beh setting_name value).1 =
        .ok { setting := setting_name, previous_value := current.value,
              new_value := value, success := true }) ∧
    (∀ e, beh.put setting_name value = .error e →
      (CanonCamera.set_setting beh setting_name value).1 = .error (.request e)) := by
  have hmain : CanonCamera.set_setting beh setting_name value =
      setSettingPut beh setting_name value current := by
    simp [CanonCamera.set_setting, hcur, hab]
  refine ⟨hmain, ?_, ?_, ?_, ?_⟩ <;> rw [hmain]
  · cases h : beh.put setting_name value <;> simp [setSettingPut, h]
  · intro m
    cases h : beh.put setting_name value <;> simp [setSettingPut, h]
  · intro h
    simp [setSettingPut, h]
  · intro e h
    simp [setSettingPut, h]

/-- C3 witness at a concrete stub camera. -/
theorem set_setting_no_ability_writes_witness :
    (CanonCamera.set_setting stubBeh "tv" "1/8000").2 =
      [getSettingReq "tv", putSettingReq "tv" "1/8000"] :=
  (set_setting_no_ability_writes stubBeh "tv" "1/8000" stubTvRecord rfl rfl).2.1

/-- C7: an unrecognized setting name yields the `invalid_parameter` envelope
on both the read and the write path (hence never
`camera_communication_error` or `internal_error`), with no HTTP request
issued; and a write with an empty value yields `invalid_parameter` with no
HTTP request issued, for every setting name. -/
theorem dispatch_unknown_setting_invalid (beh : CamBehavior)
    (setting value : String) (hname : setting ∉ readAllowList)
    (hall : setting ≠ "all") :
    get_camera_settings beh setting =
      (.err .invalid_parameter (invalidSettingMsg setting readAllowList), []) ∧
    set_camera_setting beh setting value =
      (.err .invalid_parameter (invalidSettingMsg setting writeAllowList), []) ∧
    (∀ s, ∃ m, set_camera_setting beh s "" = (.err .invalid_parameter m, [])) := by
  have hw : setting ∉ writeAllowList := by
    intro h
    apply hname
    simp only [writeAllowList, List.mem_cons, List.mem_singleton] at h
    simp only [readAllowList, List.mem_cons, List.mem_singleton]
    tauto
  refine ⟨?_, ?_, ?_⟩
  · simp [get_camera_settings, hall, hname]
  · simp [set_camera_setting, hw]
  · intro s
    by_cases hs : s ∈ writeAllowList
    · exact ⟨"Value is required", by simp [set_camera_setting, hs]⟩
    · exact ⟨invalidSettingMsg s writeAllowList, by simp [set_camera_setting, hs]⟩

/-- C7 witness at a concrete stub camera and unknown name. -/
theorem dispatch_unknown_setting_invalid_witness :
    get_camera_settings stubBeh "bogus" =
      (.err .invalid_parameter (invalidSettingMsg "bogus" readAllowList), []) ∧
    set_camera_setting stubBeh "bogus" "x" =
      (.err .invalid_parameter (invalidSettingMsg "bogus" writeAllowList), []) ∧
    (∃ m, set_camera_setting stubBeh "iso" "" = (.err .invalid_parameter m, [])) := by
  have h := dispatch_unknown_setting_invalid stubBeh "bogus" "x" (by decide) (by decide)
  exact ⟨h.1, h.2.1, h.2.2 "iso"⟩

/-- C8: `get_camera_settings "all"` succeeds with exactly the projection of
the fetched document onto the fixed key list, in allow-list order: a pair is
in the response iff its key is in the projection list and present in the
document — extraneous keys are dropped and absent projection keys are
omitted without failure. -/
theorem get_all_settings_projects (beh : CamBehavior)
    (d : List (String × SettingRecord)) (hdoc : beh.allSettings = .ok d) :
    get_camera_settings beh "all" = (.ok (.doc (projectDoc d)), [allSettingsReq]) ∧
    ∀ k v, (k, v) ∈ projectDoc d ↔ k ∈ readAllowList ∧ d.lookup k = some v := by
  constructor
  · simp [get_camera_settings, hdoc]
  · intro k v
    simp only [projectDoc, List.mem_filterMap, Option.map_eq_some']
    constructor
    · rintro ⟨a, ha, w, hw, heq⟩
      cases heq
      exact ⟨ha, hw⟩
    · rintro ⟨hk, hl⟩
      exact ⟨k, hk, v, hl, rfl⟩

/-- C8 witness: the stub document with an extraneous key. -/
theorem get_all_settings_projects_witness :
    get_camera_settings stubBeh "all" =
      (.ok (.doc (projectDoc stubDoc)), [allSettingsReq]) ∧
    projectDoc stubDoc = [("av", stubAvRecord)] :=
  ⟨(get_all_settings_projects stubBeh stubDoc rfl).1, by decide⟩

/-- C9: the write allow-list is exactly `["av", "tv", "iso"]`, so
`set_camera_setting "shootingmodedial" v` fails with `invalid_parameter` and
issues no HTTP request, for every value `v`, while the read path accepts
`shootingmodedial` and fetches it from the camera. -/
theorem shootingmodedial_read_not_write (beh : CamBehavior) (v : String)
    (r : SettingRecord) (hget : beh.getSetting "shootingmodedial" = .ok r) :
    set_camera_setting beh "shootingmodedial" v =
      (.err .invalid_parameter
        (invalidSettingMsg "shootingmodedial" writeAllowList), []) ∧
    get_camera_settings beh "shootingmodedial" =
      (.ok (.single r "shootingmodedial"), [getSettingReq "shootingmodedial"]) ∧
    writeAllowList = ["av", "tv", "iso"] ∧
    "shootingmodedial" ∈ readAllowList := by
  have hnw : "shootingmodedial" ∉ writeAllowList := by decide
  refine ⟨by simp [set_camera_setting, hnw], ?_, rfl, by decide⟩
  have hne : ("shootingmodedial" : String) ≠ "all" := by decide
  have hr : "shootingmodedial" ∈ readAllowList := by decide
  simp [get_camera_settings, hne, hr, hget]

/-- C9 witness at a concrete stub camera. -/
theorem shootingmodedial_read_not_write_witness :
    set_camera_setting stubBeh "shootingmodedial" "Av" =
      (.err .invalid_parameter
        (invalidSettingMsg "shootingmodedial" writeAllowList), []) ∧
    get_camera_settings stubBeh "shootingmodedial" =
      (.ok (.single stubModeRecord "shootingmodedial"),
       [getSettingReq "shootingmodedial"]) := by
  have h := shootingmodedial_read_not_write stubBeh "Av" stubModeRecord rfl
  exact ⟨h.1, h.2.1⟩

/-- C6 counterexample: the live-view session init POST issued by
`init_live_view` (the code calls `requests.post(url, json=body)`) carries no
timeout argument at all, refuting the claim that no camera HTTP call is made
without a timeout. -/
theorem init_live_view_post_has_no_timeout :
    (CanonCamera.init_live_view_req "small" "keep").timeout = none ∧
    (CanonCamera.init_live_view_req "small" "keep").method = "POST" := by
  exact ⟨rfl, rfl⟩

/-- C6 amended: every settings read and write request carries a 10-second
timeout (including both requests issued by `set_setting`), and the live-view
frame fetch carries a 15-second timeout; the live-view init POST, however,
is issued without any timeout. -/
theorem client_request_timeouts (beh : CamBehavior)
    (setting_name value liveviewsize cameradisplay : String) :
    allSettingsReq.timeout = some 10 ∧
    (getSettingReq setting_name).timeout = some 10 ∧
    (putSettingReq setting_name value).timeout = some 10 ∧
    (∀ r ∈ (CanonCamera.get_all_settings beh).2, r.timeout = some 10) ∧
    (∀ r ∈ (CanonCamera.get_setting beh setting_name).2, r.timeout = some 10) ∧
    (∀ r ∈ (CanonCamera.set_setting beh setting_name value).2,
      r.timeout = some 10) ∧
    liveviewFlipReq.timeout = some 15 ∧
    (CanonCamera.init_live_view_req liveviewsize cameradisplay).timeout = none := by
  refine ⟨rfl, rfl, rfl, ?_, ?_, ?_, rfl, rfl⟩
  · intro r hr
    simp only [CanonCamera.get_all_settings, List.mem_singleton] at hr
    subst hr; rfl
  · intro r hr
    simp only [CanonCamera.get_setting, List.mem_singleton] at hr
    subst hr; rfl
  · intro r hr
    have hput : ∀ cur, ∀ r2 ∈ (setSettingPut beh setting_name value cur).2,
        r2.timeout = some 10 := by
      intro cur r2 hr2
      unfold setSettingPut at hr2
      rcases hp : beh.put setting_name value with e2 | u <;> simp only [hp] at hr2 <;>
        simp only [List.mem_cons, List.mem_singleton, List.not_mem_nil, or_false] at hr2 <;>
        rcases hr2 with h | h <;> subst h <;> rfl
    unfold CanonCamera.set_setting at hr
    rcases hg : beh.getSetting setting_name with e | current <;> simp only [hg] at hr
    · simp only [List.mem_singleton] at hr
      subst hr; rfl
    · rcases hab : current.ability with _ | ab <;> simp only [hab] at hr
      · exact hput current r hr
      · by_cases hmem : value ∈ ab
        · rw [if_neg (by simp [hmem])] at hr
          exact hput current r hr
        · rw [if_pos (by simp [hmem])] at hr
          simp only [List.mem_singleton] at hr
          subst hr; rfl

/-- The qualities the Phase-1 while-loop visits from a given start, in
order. -/
def phase1Visited (quality : Nat) : List Nat :=
  if h : 10 ≤ quality then quality :: phase1Visited (quality - 5) else []
termination_by quality
decreasing_by omega

/-- The Phase-1 loop returns the first visited quality whose encoding fits
the budget. -/
theorem phase1Loop_eq_find (m : EncModel) (fmt : ImgFormat) (B q : Nat) :
    phase1Loop m fmt B q =
      (phase1Visited q).find? fun x => decide (phase1Enc m fmt x ≤ B) := by
  induction q using Nat.strong_induction_on with
  | _ q ih =>
    rw [phase1Loop, phase1Visited]
    by_cases h : 10 ≤ q
    · rw [dif_pos h, dif_pos h, List.find?_cons]
      by_cases hfit : phase1Enc m fmt q ≤ B
      · simp [hfit]
      · simp [hfit, ih (q - 5) (by omega)]
    · rw [dif_neg h, dif_neg h, List.find?_nil]

/-- The loop start 95 visits exactly `qualityGrid`. -/
theorem phase1Visited_95 : phase1Visited 95 = qualityGrid := by
  simp [phase1Visited, qualityGrid]

/-- In a strictly decreasing list, `find?` returns the maximum element
satisfying the predicate. -/
theorem find?_isMax_of_sorted (l : List Nat) (p : Nat → Bool) :
    l.Sorted (· > ·) → ∀ a, l.find? p = some a →
      ∀ b ∈ l, p b = true → b ≤ a := by
  induction l with
  | nil => intro _ a ha; simp at ha
  | cons x xs ih =>
    intro hs a ha b hb hp
    rcases List.sorted_cons.mp hs with ⟨hgt, hs2⟩
    rw [List.find?_cons] at ha
    by_cases hx : p x = true
    · simp only [hx] at ha
      have hxa : x = a := by simpa using ha
      subst hxa
      rcases List.mem_cons.mp hb with rfl | hb2
      · exact le_refl _
      · exact le_of_lt (hgt b hb2)
    · rw [Bool.not_eq_true] at hx
      simp only [hx] at ha
      rcases List.mem_cons.mp hb with rfl | hb2
      · rw [hp] at hx; cases hx
      · exact ih hs2 a ha b hb2 hp

/-- C4: Phase 1 tries the qualities 95, 90, ..., 10 in that (strictly
decreasing) order, each time encoding at the original resolution, and
returns at the first quality whose encoded size fits the budget; hence when
some grid quality fits, the returned buffer is the Phase-1 encoding at the
highest fitting grid quality. -/
theorem compress_phase1_first_and_highest (m : EncModel) (fmt : ImgFormat)
    (target_size_mb q0 : Nat) (hq0 : q0 ∈ qualityGrid)
    (hfit0 : phase1Enc m fmt q0 ≤ target_size_mb * 1024 * 1024) :
    (phase1Loop m fmt (target_size_mb * 1024 * 1024) 95 =
      qualityGrid.find? fun x =>
        decide (phase1Enc m fmt x ≤ target_size_mb * 1024 * 1024)) ∧
    qualityGrid.Sorted (· > ·) ∧
    ∃ q, compress_image_to_target_size m fmt target_size_mb = Buffer.fullRes q ∧
      q ∈ qualityGrid ∧ phase1Enc m fmt q ≤ target_size_mb * 1024 * 1024 ∧
      ∀ q2 ∈ qualityGrid,
        phase1Enc m fmt q2 ≤ target_size_mb * 1024 * 1024 → q2 ≤ q := by
  have hfind : phase1Loop m fmt (target_size_mb * 1024 * 1024) 95 =
      qualityGrid.find? fun x =>
        decide (phase1Enc m fmt x ≤ target_size_mb * 1024 * 1024) := by
    rw [phase1Loop_eq_find, phase1Visited_95]
  refine ⟨hfind, by decide, ?_⟩
  have hsome : (qualityGrid.find? fun x =>
      decide (phase1Enc m fmt x ≤ target_size_mb * 1024 * 1024)).isSome := by
    rw [List.find?_isSome]
    exact ⟨q0, hq0, by simpa using hfit0⟩
  rcases Option.isSome_iff_exists.mp hsome with ⟨q, hq⟩
  refine ⟨q, ?_, List.mem_of_find?_eq_some hq, by simpa using List.find?_some hq, ?_⟩
  · unfold compress_image_to_target_size
    rw [hfind, hq]
  · intro q2 hq2 hfit2
    exact find?_isMax_of_sorted qualityGrid _ (by decide) q hq q2 hq2
      (by simpa using hfit2)

/-- Encoder for the C4 witness: JPEG size is 200 bytes per percent-quality
unit, so with a 1 MB budget the first (and highest) fitting quality is 50. -/
def witEnc : EncModel :=
  { jpegAt := fun pct q => pct * q * 200, pngAt := fun pct => pct * 1000 }

/-- C4 witness at a concrete encoder and budget. -/
theorem compress_phase1_first_and_highest_witness :
    ∃ q, compress_image_to_target_size witEnc ImgFormat.JPEG 1 = Buffer.fullRes q ∧
      q ∈ qualityGrid ∧ phase1Enc witEnc ImgFormat.JPEG q ≤ 1 * 1024 * 1024 ∧
      ∀ q2 ∈ qualityGrid,
        phase1Enc witEnc ImgFormat.JPEG q2 ≤ 1 * 1024 * 1024 → q2 ≤ q :=
  (compress_phase1_first_and_highest witEnc ImgFormat.JPEG 1 50
    (by decide) (by decide)).2.2

/-- When no step fits, the Phase-2 loop runs off the end of the scale steps
and the function returns the buffer of the last step performed. -/
theorem phase2Go_last_of_none_fit (m : EncModel) (fmt : ImgFormat) (B : Nat) :
    ∀ l : List Nat, (∀ p ∈ l, ¬ phase2Enc m fmt p ≤ B) →
      phase2Go m fmt B l = Buffer.scaled (l.getLastD 0) := by
  intro l
  induction l with
  | nil => intro _; rfl
  | cons x xs ih =>
    intro h
    cases xs with
    | nil => rfl
    | cons y ys =>
      have hx : ¬ phase2Enc m fmt x ≤ B := h x (List.mem_cons_self x _)
      rw [phase2Go, if_neg hx, ih fun p hp => h p (List.mem_cons_of_mem x hp)]
      · simp [List.getLastD_cons]
      · simp

/-- The Phase-2 loop returns at the first fitting scale step, which in a
strictly decreasing step list is the largest fitting one. -/
theorem phase2Go_first_fit (m : EncModel) (fmt : ImgFormat) (B : Nat) :
    ∀ l : List Nat, l.Sorted (· > ·) →
      ∀ p0 ∈ l, phase2Enc m fmt p0 ≤ B →
      ∃ p, phase2Go m fmt B l = Buffer.scaled p ∧ p ∈ l ∧
        phase2Enc m fmt p ≤ B ∧ ∀ p2 ∈ l, phase2Enc m fmt p2 ≤ B → p2 ≤ p := by
  intro l
  induction l with
  | nil => intro _ p0 h; exact absurd h (List.not_mem_nil p0)
  | cons x xs ih =>
    intro hs p0 hp0 hfit0
    rcases List.sorted_cons.mp hs with ⟨hgt, hs2⟩
    by_cases hx : phase2Enc m fmt x ≤ B
    · refine ⟨x, ?_, List.mem_cons_self x xs, hx, ?_⟩
      · cases xs with
        | nil => rfl
        | cons y ys =>
            rw [phase2Go, if_pos hx]
            simp
      · intro p2 hp2 _
        rcases List.mem_cons.mp hp2 with rfl | h2
        · exact le_refl _
        · exact le_of_lt (hgt p2 h2)
    · have hp0x : p0 ∈ xs := by
        rcases List.mem_cons.mp hp0 with rfl | h2
        · exact absurd hfit0 hx
        · exact h2
      rcases ih hs2 p0 hp0x hfit0 with ⟨p, hgo, hpmem, hpfit, hpmax⟩
      rcases List.exists_cons_of_ne_nil (List.ne_nil_of_mem hp0x) with ⟨y, ys, rfl⟩
      refine ⟨p, ?_, List.mem_cons_of_mem x hpmem, hpfit, ?_⟩
      · rw [phase2Go, if_neg hx]
        · exact hgo
        · simp
      · intro p2 hp2 hfit2
        rcases List.mem_cons.mp hp2 with rfl | h2
        · exact absurd hfit2 hx
        · exact hpmax p2 h2 hfit2

/-- C5 amended theorem: when no Phase-1 quality fits, the adapter falls back
to Phase 2, which tries the scale steps 90%, 80%, ..., 10% in that order,
re-encoding each resized frame (fixed quality 75 for JPEG, plain optimized
save for PNG — see `phase2Enc`), and returns at the first fitting step —
the largest fitting scale; when no Phase-2 step fits either, it returns the
buffer of the last step performed, at the 10% scale floor, so a buffer is
always returned (but it is the final buffer, not necessarily the smallest
one produced). -/
theorem resize_phase2_spec (m : EncModel) (fmt : ImgFormat) (target_size_mb : Nat)
    (hphase1 : ∀ q ∈ qualityGrid,
      ¬ phase1Enc m fmt q ≤ target_size_mb * 1024 * 1024) :
    compress_image_to_target_size m fmt target_size_mb =
      resize_and_compress_image m fmt (target_size_mb * 1024 * 1024) ∧
    scaleGrid.Sorted (· > ·) ∧
    ((∃ p ∈ scaleGrid, phase2Enc m fmt p ≤ target_size_mb * 1024 * 1024) →
      ∃ p, resize_and_compress_image m fmt (target_size_mb * 1024 * 1024) =
          Buffer.scaled p ∧
        p ∈ scaleGrid ∧ phase2Enc m fmt p ≤ target_size_mb * 1024 * 1024 ∧
        ∀ p2 ∈ scaleGrid,
          phase2Enc m fmt p2 ≤ target_size_mb * 1024 * 1024 → p2 ≤ p) ∧
    ((∀ p ∈ scaleGrid, ¬ phase2Enc m fmt p ≤ target_size_mb * 1024 * 1024) →
      resize_and_compress_image m fmt (target_size_mb * 1024 * 1024) =
        Buffer.scaled 10) := by
  have hnone : phase1Loop m fmt (target_size_mb * 1024 * 1024) 95 = none := by
    rw [phase1Loop_eq_find, phase1Visited_95, List.find?_eq_none]
    intro x hx
    simpa using hphase1 x hx
  refine ⟨?_, by decide, ?_, ?_⟩
  · unfold compress_image_to_target_size
    rw [hnone]
  · rintro ⟨p0, hp0, hfit0⟩
    exact phase2Go_first_fit m fmt (target_size_mb * 1024 * 1024) scaleGrid
      (by decide) p0 hp0 hfit0
  · intro hno
    exact phase2Go_last_of_none_fit m fmt (target_size_mb * 1024 * 1024)
      scaleGrid hno

/-- Encoder for the C5 witness: every Phase-1 encoding exceeds 1 MB, and the
first Phase-2 step (90%) fits. -/
def witEnc2 : EncModel :=
  { jpegAt := fun pct q => if pct = 100 then 2000000 + q else pct * 10000
    pngAt := fun _ => 0 }

/-- C5 witness at a concrete encoder and budget. -/
theorem resize_phase2_spec_witness :
    compress_image_to_target_size witEnc2 ImgFormat.JPEG 1 =
      resize_and_compress_image witEnc2 ImgFormat.JPEG (1 * 1024 * 1024) :=
  (resize_phase2_spec witEnc2 ImgFormat.JPEG 1 (by decide)).1

/-- Encoder for the C5 counterexample: nothing fits a 1 MB budget, and the
20% step produces a strictly smaller buffer than the final 10% step. -/
def cexEnc : EncModel :=
  { jpegAt := fun pct q => if pct = 20 then 5000000 else 6000000 + pct + q
    pngAt := fun _ => 6000000 }

/-- C5 counterexample: with `cexEnc`, no Phase-1 or Phase-2 step fits the
1 MB budget, and the adapter returns the buffer of the final Phase-2 step
(10% scale) even though the 20% step produced a strictly smaller buffer —
so it does not return the smallest buffer produced during Phase 2. -/
theorem resize_exhaustion_returns_last_not_smallest :
    compress_image_to_target_size cexEnc ImgFormat.JPEG 1 = Buffer.scaled 10 ∧
    (∀ q ∈ qualityGrid, ¬ phase1Enc cexEnc ImgFormat.JPEG q ≤ 1 * 1024 * 1024) ∧
    (∀ p ∈ scaleGrid, ¬ phase2Enc cexEnc ImgFormat.JPEG p ≤ 1 * 1024 * 1024) ∧
    20 ∈ scaleGrid ∧
    phase2Enc cexEnc ImgFormat.JPEG 20 < phase2Enc cexEnc ImgFormat.JPEG 10 := by
  refine ⟨?_, by decide, by decide, by decide, by decide⟩
  have hnone : phase1Loop cexEnc ImgFormat.JPEG (1 * 1024 * 1024) 95 = none := by
    rw [phase1Loop_eq_find, phase1Visited_95, List.find?_eq_none]
    intro x hx
    have hval : phase1Enc cexEnc ImgFormat.JPEG x = 6000100 + x := by
      simp [phase1Enc, cexEnc]
    simp only [decide_eq_true_eq, hval]
    omega
  unfold compress_image_to_target_size
  rw [hnone]
  decide

/-- Every 6-bit group maps to an alphabet character distinct from the pad. -/
theorem b64Char_ne_pad : ∀ n < 64, ¬ b64Char n = '=' := by decide

/-- Alphabet lookup inverts the character table on 6-bit groups. -/
theorem b64Index_b64Char : ∀ n < 64, b64Index (b64Char n) = some n := by decide

/-- Characters of a 6-bit group survive the decode discard pass. -/
theorem b64Char_valid : ∀ n < 64, b64ValidChar (b64Char n) = true := by decide

/-- Every character produced by the encoder survives the discard pass. -/
theorem b64encode_all_valid (bs : List Nat) :
    (∀ b ∈ bs, b < 256) → ∀ ch ∈ b64encode bs, b64ValidChar ch = true := by
  induction bs using b64encode.induct with
  | case1 => intro _; simp [b64encode]
  | case2 a =>
    intro h ch hch
    have ha : a < 256 := h a (by simp)
    simp only [b64encode, List.mem_cons, List.not_mem_nil, or_false] at hch
    rcases hch with rfl | rfl | rfl | rfl
    · exact b64Char_valid _ (by omega)
    · exact b64Char_valid _ (by omega)
    · decide
    · decide
  | case3 a b =>
    intro h ch hch
    have ha : a < 256 := h a (by simp)
    have hb : b < 256 := h b (by simp)
    simp only [b64encode, List.mem_cons, List.not_mem_nil, or_false] at hch
    rcases hch with rfl | rfl | rfl | rfl
    · exact b64Char_valid _ (by omega)
    · exact b64Char_valid _ (by omega)
    · exact b64Char_valid _ (by omega)
    · decide
  | case4 a b c rest ih =>
    intro h ch hch
    have ha : a < 256 := h a (by simp)
    have hb : b < 256 := h b (by simp)
    have hc : c < 256 := h c (by simp)
    simp only [b64encode, b64EncTriple, List.cons_append, List.nil_append,
      List.mem_cons] at hch
    rcases hch with rfl | rfl | rfl | rfl | hch
    · exact b64Char_valid _ (by omega)
    · exact b64Char_valid _ (by omega)
    · exact b64Char_valid _ (by omega)
    · exact b64Char_valid _ (by omega)
    · exact ih (fun x hx => h x (by simp [hx])) ch hch

/-- Group decoding inverts the encoder on byte strings. -/
theorem b64DecGroups_encode (bs : List Nat) :
    (∀ b ∈ bs, b < 256) → b64DecGroups (b64encode bs) = some bs := by
  induction bs using b64encode.induct with
  | case1 => intro _; rfl
  | case2 a =>
    intro h
    have ha : a < 256 := h a (by simp)
    have i1 := b64Index_b64Char (a / 4) (by omega)
    have i2 := b64Index_b64Char ((a % 4) * 16) (by omega)
    simp only [b64encode, b64DecGroups, i1, i2]
    rw [if_pos trivial, if_pos trivial, if_pos trivial]
    simp only [Option.some.injEq, List.cons.injEq, and_true]
    omega
  | case3 a b =>
    intro h
    have ha : a < 256 := h a (by simp)
    have hb : b < 256 := h b (by simp)
    have i1 := b64Index_b64Char (a / 4) (by omega)
    have i2 := b64Index_b64Char ((a % 4) * 16 + b / 16) (by omega)
    have i3 := b64Index_b64Char ((b % 16) * 4) (by omega)
    have n3 := b64Char_ne_pad ((b % 16) * 4) (by omega)
    simp only [b64encode, b64DecGroups, i1, i2]
    rw [if_neg n3]
    simp only [i3]
    simp
    omega
  | case4 a b c rest ih =>
    intro h
    have ha : a < 256 := h a (by simp)
    have hb : b < 256 := h b (by simp)
    have hc : c < 256 := h c (by simp)
    have i1 := b64Index_b64Char (a / 4) (by omega)
    have i2 := b64Index_b64Char ((a % 4) * 16 + b / 16) (by omega)
    have i3 := b64Index_b64Char ((b % 16) * 4 + c / 64) (by omega)
    have i4 := b64Index_b64Char (c % 64) (by omega)
    have n3 := b64Char_ne_pad ((b % 16) * 4 + c / 64) (by omega)
    have n4 := b64Char_ne_pad (c % 64) (by omega)
    have hrest := ih (fun x hx => h x (by simp [hx]))
    simp only [b64encode, b64EncTriple, List.cons_append, List.nil_append,
      b64DecGroups, i1, i2]
    rw [if_neg n3]
    simp only [i3]
    rw [if_neg n4]
    simp only [List.append_eq, List.nil_append, i4, hrest]
    simp only [Option.some.injEq, List.cons.injEq, and_true]
    omega

/-- C10: the dispatch layer's base64 decode of the client's
base64-plus-newline live-view string recovers exactly the camera's frame
bytes: the decode-after-encode round trip through `get_liveview_image` and
`get_liveview` is the identity on the frame bytes. -/
theorem liveview_b64_roundtrip (content : List Nat)
    (h : ∀ b ∈ content, b < 256) :
    get_liveview_decoded content = some content := by
  unfold get_liveview_decoded pyB64decode CanonCamera.get_liveview_image b64Strip
  rw [List.filter_append]
  rw [List.filter_eq_self.mpr (b64encode_all_valid content h)]
  have hnl : List.filter b64ValidChar ['\n'] = [] := by decide
  rw [hnl, List.append_nil]
  exact b64DecGroups_encode content h

/-- C10 witness on a concrete five-byte frame. -/
theorem liveview_b64_roundtrip_witness :
    get_liveview_decoded [137, 80, 78, 71, 13] = some [137, 80, 78, 71, 13] :=
  liveview_b64_roundtrip [137, 80, 78, 71, 13] (by decide)
